import Mathlib

/-!
Shallow embedding of the gofigure HTTP load tester (package main).

The program issues N HTTP requests with C concurrent workers, times each
exchange, and prints latency statistics.  The embedding below translates,
function by function, the Go source:

  * `result`, the per-request record `{time time.Duration; err error}`;
  * `printStats`, the statistics aggregator;
  * `hasPort` and `getURL`, the target resolver;
  * `send`, the timed transceiver with its timeout race, modelled over an
    explicit network environment;
  * `start` / `sender` / `main`, the dispatch engine, modelled with the
    channel contents made explicit (the queue is a list of ticket indices,
    the arrival order of results is an oracle parameter).

Durations are `Int` nanoseconds (Go `int64`; the quantities involved are
far below the 2^63 overflow bound, so plain integers are faithful).
Go integer division on `int64` truncates toward zero, which is `Int.tdiv`.
-/

namespace Gofigure

/-- Error values a `result.err` can carry.  `dialErr`, `writeErr`, `readErr`
mirror the errors returned by `net.Dial`, `Request.Write` and
`http.ReadResponse`; `timeoutMsg` is the value built by
`errors.New("Timeout!")` in `send`. -/
inductive GoErr where
  | dialErr (msg : String)
  | writeErr (msg : String)
  | readErr (msg : String)
  | timeoutMsg
  deriving DecidableEq, Repr

/-- Translation of `type result struct { time time.Duration; err error }`.
`time` is nanoseconds; `err = none` is Go `err == nil`. -/
structure result where
  time : Int
  err : Option GoErr
  deriving DecidableEq, Repr

/-- The latencies of the successful results, in result-set order: the loop
in `printStats` that appends `r.time.Nanoseconds()` for every `r` with
`r.err == nil`. -/
def successTimes (results : List result) : List Int :=
  (results.filter (fun r => r.err = none)).map (fun r => r.time)

/-- Running total accumulated by the same loop (`total += r.time.Nanoseconds()`). -/
def totalTime (results : List result) : Int :=
  (successTimes results).sum

/-- Number of successful results, `len(times)` in `printStats`. -/
def successCount (results : List result) : Nat :=
  (successTimes results).length

/-- Result of `sort.Sort(times)`: ascending order by `<` on `int64`
(`Int64Array.Less`).  Modelled as insertion sort with `≤`, which produces
the unique `≤`-sorted permutation of the input. -/
def sortedTimes (results : List result) : List Int :=
  List.insertionSort (fun a b : Int => a ≤ b) (successTimes results)

/-- Average computed by `printStats`: `total / int64(len(times))` inside the
`len(times) > 0` guard, otherwise `0`.  Go `int64` division is truncated
division, `Int.tdiv`. -/
def averageOf (results : List result) : Int :=
  let times := sortedTimes results
  if 0 < times.length then (totalTime results).tdiv (times.length : Int) else 0

/-- Median computed by `printStats`: `times[len(times)/2]` after the sort,
inside the `len(times) > 0` guard, otherwise `0`.  The index is in bounds
exactly because the guard holds, which the `List.get` proof obligation
records. -/
def medianOf (results : List result) : Int :=
  let times := sortedTimes results
  if h : 0 < times.length then
    times.get ⟨times.length / 2, Nat.div_lt_self h (by norm_num)⟩
  else 0

/-- Failure count printed by `printStats`: `*reqs - len(times)` (Go `int`
arithmetic, so plain `Int` subtraction). -/
def failuresReported (reqs : Nat) (results : List result) : Int :=
  (reqs : Int) - (successCount results : Int)

/-- Numeric fields of the final report, in the order `printStats` prints
them.  The requests-per-second line is a float computed from the same
`reqs` and `workTime` and is not modelled numerically. -/
structure Stats where
  totalRequests : Int
  failures : Int
  workTime : Int
  average : Int
  median : Int
  avgBetween : Int
  deriving DecidableEq, Repr

/-- Translation of `printStats(results, workTime)`; the global `*reqs` is
passed explicitly. -/
def printStats (reqs : Nat) (results : List result) (workTime : Int) : Stats :=
  { totalRequests := (reqs : Int)
    failures := failuresReported reqs results
    workTime := workTime
    average := averageOf results
    median := medianOf results
    avgBetween := workTime.tdiv (reqs : Int) }

/-- Index of the last occurrence of `c` in the character list, or `-1` when
absent: the value of Go `strings.LastIndex(s, c)`.  Go returns a byte
index over UTF-8; character indices order occurrences identically, so the
comparison made by `hasPort` is preserved. -/
def lastIndex : List Char → Char → Int
  | [], _ => -1
  | x :: xs, c =>
    if 0 ≤ lastIndex xs c then lastIndex xs c + 1
    else if x = c then 0 else -1

/-- Translation of `hasPort`: the last `:` of the host occurs strictly after
its last `]`. -/
def hasPort (s : String) : Bool :=
  decide (lastIndex s.data ':' > lastIndex s.data ']')

/-- Parsed URL as far as `getURL` inspects it.  `url.Parse` belongs to the
Go standard library; `getURL` receives its output, so the embedding takes
the parsed scheme and host as input. -/
structure URL where
  scheme : String
  host : String
  deriving DecidableEq, Repr

/-- Error returned by `getURL` when the scheme is neither `http` nor
`https` (the `someError` value). -/
inductive URLErr where
  | unsupportedScheme (s : String)
  deriving DecidableEq, Repr

/-- Translation of `getURL` after a successful parse: reject any scheme
other than `http` / `https`, and append the literal `":http"` to a host
that `hasPort` judges portless. -/
def getURL (u : URL) : Except URLErr URL :=
  if u.scheme ≠ "http" ∧ u.scheme ≠ "https" then
    Except.error (URLErr.unsupportedScheme u.scheme)
  else if hasPort u.host then
    Except.ok u
  else
    Except.ok { u with host := u.host ++ ":http" }

/-- Port a service name or numeric string denotes when `net.Dial` resolves
the `host:port` suffix: the services database maps `"http"` to TCP port 80
and `"https"` to 443; a numeric string names its own port.  Modelled from
the standard library lookup that consumes the host produced by `getURL`. -/
def servicePort (s : String) : Option Nat :=
  if s = "http" then some 80
  else if s = "https" then some 443
  else s.toNat?

/-- Text after the last `:` of a host, the part `net.Dial` treats as the
port / service name. -/
def portStringOfHost (h : String) : String :=
  ⟨h.data.drop ((lastIndex h.data ':').toNat + 1)⟩

/-- Statement of claim C4, following the words of the spec: every accepted
URL whose host lacks an explicit port is assigned the default port of its
scheme, 80 for http and 443 for https. -/
def specDefaultPort (scheme : String) : Nat :=
  if scheme = "https" then 443 else 80

/-- Spec reading of the default-port rule, to be compared with `getURL`. -/
def specC4 : Prop :=
  ∀ u v : URL, getURL u = Except.ok v → hasPort u.host = false →
    servicePort (portStringOfHost v.host) = some (specDefaultPort u.scheme)

/-- Network environment for one call of `send`: what `net.Dial`, `Write`,
the timer and `http.ReadResponse` do on this call, and the wall-clock
nanoseconds elapsed since the `now := time.Now()` timestamp at each point
an outcome is decided.  `readOutcome = none` means `ReadResponse` succeeded
and returned a non-nil response; `some e` means it failed and, per its
contract, returned a nil response together with `e`. -/
structure SendEnv where
  dialResult : Option GoErr
  elapsedAtDialFail : Int
  writeResult : Option GoErr
  elapsedAtWriteFail : Int
  timerFirst : Bool
  elapsedAtTimeout : Int
  readOutcome : Option GoErr
  elapsedAtRead : Int
  deriving DecidableEq, Repr

/-- What a call of `send` does: return a `result`, or crash.  The crash arm
models the nil-pointer dereference of `rerr.resp.Body` when
`http.ReadResponse` failed (its response is nil) and the read arm of the
`select` runs `rerr.resp.Body.Close()`. -/
inductive SendOutcome where
  | ret (r : result)
  | nilDeref
  deriving DecidableEq, Repr

/-- Observable effect of one `send` call: its outcome plus whether
`conn.Close()` and `resp.Body.Close()` ran. -/
structure SendTrace where
  outcome : SendOutcome
  connClosed : Bool
  bodyClosed : Bool
  deriving DecidableEq, Repr

/-- Translation of `send`, branch by branch.  Dial failure returns
`result{0, err}` with no connection open; write failure closes the
connection and returns `result{0, err}`; then the `select` races the
`time.After` timer against the asynchronous read.  Timer first: return the
elapsed time with the `Timeout!` error, closing nothing (the read is
abandoned).  Read first: assign `res`, run `conn.Close()`, then run
`rerr.resp.Body.Close()` — which dereferences a nil response when the read
failed, before `res` can be returned. -/
def send (env : SendEnv) : SendTrace :=
  match env.dialResult with
  | some e => { outcome := SendOutcome.ret { time := 0, err := some e }
                connClosed := false, bodyClosed := false }
  | none =>
    match env.writeResult with
    | some e => { outcome := SendOutcome.ret { time := 0, err := some e }
                  connClosed := true, bodyClosed := false }
    | none =>
      if env.timerFirst then
        { outcome := SendOutcome.ret
            { time := env.elapsedAtTimeout, err := some GoErr.timeoutMsg }
          connClosed := false, bodyClosed := false }
      else
        match env.readOutcome with
        | none =>
          { outcome := SendOutcome.ret { time := env.elapsedAtRead, err := none }
            connClosed := true, bodyClosed := true }
        | some _ =>
          { outcome := SendOutcome.nilDeref
            connClosed := true, bodyClosed := false }

/-- Wall-clock nanoseconds from just before `net.Dial` to the moment the
outcome of the call is decided, read off the environment. -/
def decisionElapsed (env : SendEnv) : Int :=
  match env.dialResult with
  | some _ => env.elapsedAtDialFail
  | none =>
    match env.writeResult with
    | some _ => env.elapsedAtWriteFail
    | none => if env.timerFirst then env.elapsedAtTimeout else env.elapsedAtRead

/-- Spec reading of claim C7: every result returned by `send` records the
wall-clock time from just before dialing to the decision of the outcome,
whatever the outcome was. -/
def specC7 : Prop :=
  ∀ (env : SendEnv) (r : result),
    (send env).outcome = SendOutcome.ret r → r.time = decisionElapsed env

/-- Queue contents after the preload loop of `start`: one ticket per
request index, `0, 1, ..., requests-1`, each enqueued exactly once. -/
def preloadedQueue (requests : Nat) : List Nat :=
  List.range requests

/-- Results gathered by the collection loop of `start`, in arrival order.
The loop stores exactly `requests` channel receives into `results[0..]`;
which result arrives k-th is scheduling-dependent, so it is supplied by the
`arrival` oracle. -/
def startResults (requests : Nat) (arrival : Nat → result) : List result :=
  (List.range requests).map arrival

/-- Console events `start` emits besides the final report. -/
inductive OutputEvent where
  | progress (completedIndex total : Nat)
  | eraseLine
  deriving DecidableEq, Repr

/-- Whether the transient progress line is printed immediately after
storing `results[i]`: the test `i > 0 && i%100 == 0` of the collection
loop, which runs only for loop indices `i < requests`. -/
def progressPrintedAt (requests i : Nat) : Bool :=
  decide (i < requests) && decide (0 < i) && decide (i % 100 = 0)

/-- Loop indices at which the progress line is printed, in order. -/
def progressIndices (requests : Nat) : List Nat :=
  (List.range requests).filter (fun i => decide (0 < i) && decide (i % 100 = 0))

/-- Console events of one `start` run: a progress line for each printing
index, showing that index and the total, then the spaces line that
overwrites the progress text before the final report is printed. -/
def startEvents (requests : Nat) : List OutputEvent :=
  (progressIndices requests).map (fun i => OutputEvent.progress i requests)
    ++ [OutputEvent.eraseLine]

/-- Spec reading of claim C8: after every 100th result collected (the
100th, 200th, ...) a progress message appears.  Collecting the m-th result
corresponds to loop index `m - 1`. -/
def specC8 (requests : Nat) : Prop :=
  ∀ m, 0 < m → m % 100 = 0 → m ≤ requests →
    progressPrintedAt requests (m - 1) = true

/-- How a run of `main` ends. -/
inductive MainOutcome where
  | usage
  | configError
  | urlError
  | ran
  deriving DecidableEq, Repr

/-- Observable behaviour of one `main` run: how it ended, how many tickets
were pushed onto the queue, how many times the URL was parsed / resolved,
and how many network dials were attempted. -/
structure MainTrace where
  outcome : MainOutcome
  ticketsCreated : Nat
  urlResolutions : Nat
  dials : Nat
  deriving DecidableEq, Repr

/-- Translation of the control flow of `main`.  In source order: no
argument prints the usage text and returns; `*concurrency > *reqs` prints
the one-line error and returns; only then is `getURL` called (the single
URL parse / resolution), and only after it succeeds does `start` preload
`requests` tickets and do the requests, each of which dials once.
`parse` stands for `url.Parse` on the first argument; `reqs` and `conc`
are the flag values (Go `int`). -/
def mainRun (args : List String) (reqs conc : Int)
    (parse : String → Option URL) : MainTrace :=
  match args with
  | [] => { outcome := MainOutcome.usage
            ticketsCreated := 0, urlResolutions := 0, dials := 0 }
  | a :: _ =>
    if conc > reqs then
      { outcome := MainOutcome.configError
        ticketsCreated := 0, urlResolutions := 0, dials := 0 }
    else
      match parse a with
      | none => { outcome := MainOutcome.urlError
                  ticketsCreated := 0, urlResolutions := 1, dials := 0 }
      | some u =>
        match getURL u with
        | Except.error _ =>
          { outcome := MainOutcome.urlError
            ticketsCreated := 0, urlResolutions := 1, dials := 0 }
        | Except.ok _ =>
          { outcome := MainOutcome.ran
            ticketsCreated := reqs.toNat, urlResolutions := 1
            dials := reqs.toNat }

/-- Tickets pulled by worker `w` when the scheduler hands ticket `t` to
worker `assign t`: the queue is FIFO and every ticket is received by
exactly one of the `c` workers. -/
def workerTickets (requests c : Nat) (assign : Nat → Fin c) (w : Fin c) :
    List Nat :=
  (preloadedQueue requests).filter (fun t => decide (assign t = w))

/-- State of the `queue` channel: its buffered tickets and whether `close`
has been called on it.  Nowhere in the source is `close(queue)` called. -/
structure Chan where
  buf : List Nat
  closed : Bool
  deriving DecidableEq, Repr

/-- The queue channel as `start` leaves it for the workers: preloaded with
the `requests` tickets and never closed. -/
def startQueue (requests : Nat) : Chan :=
  { buf := preloadedQueue requests, closed := false }

/-- One receive attempt of a `for _ = range queue` iteration, following Go
channel semantics: a buffered ticket is taken; on an empty buffer the
range loop is left if the channel is closed, and otherwise the receiver
blocks until a send or a close arrives. -/
inductive RangeStep where
  | recv (t : Nat) (rest : Chan)
  | exitLoop
  | block
  deriving DecidableEq, Repr

/-- Semantics of one channel receive performed by the range loop. -/
def rangeRecv (ch : Chan) : RangeStep :=
  match ch.buf with
  | t :: rest => RangeStep.recv t { buf := rest, closed := ch.closed }
  | [] => if ch.closed then RangeStep.exitLoop else RangeStep.block

/-- How a worker's `for _ = range queue` loop ends: `exited` when a receive
on a closed, drained channel makes the range loop terminate; `blocked`
when the receive parks the goroutine on an open, empty channel.  In this
program no send and no close ever follows the preload, so a parked worker
stays parked until the process exits. -/
inductive WorkerEnd where
  | exited
  | blocked
  deriving DecidableEq, Repr

/-- Translation of `sender`: the `for _ = range queue` loop repeatedly
attempts a receive; each received ticket runs the body `out <- send(url)`
(`sendO t` is the result of the `send` call for ticket `t`; the call
ignores the ticket value, the oracle only distinguishes the calls), an
empty closed channel makes the loop exit, and an empty open channel
blocks the worker forever.  The returned pair is the forwarded results
and how the loop ended. -/
def senderLoop (sendO : Nat → result) (cl : Bool) : List Nat → List result × WorkerEnd
  | [] => if cl then ([], WorkerEnd.exited) else ([], WorkerEnd.blocked)
  | t :: rest =>
    let p := senderLoop sendO cl rest
    (sendO t :: p.1, p.2)

/-- The worker loop run on a channel state. -/
def sender (sendO : Nat → result) (ch : Chan) : List result × WorkerEnd :=
  senderLoop sendO ch.closed ch.buf

/-- Concrete result set whose successes have latencies 10 ms, 40 ms, 20 ms
and 30 ms (nanoseconds, unsorted arrival order), used to exercise the
median policy on an even count. -/
def exampleResults : List result :=
  [{ time := 10000000, err := none }, { time := 40000000, err := none },
   { time := 20000000, err := none }, { time := 30000000, err := none }]

/-- Environment where `net.Dial` fails after 5 ms: connection refused. -/
def dialFailEnv : SendEnv :=
  { dialResult := some (GoErr.dialErr "connection refused")
    elapsedAtDialFail := 5000000
    writeResult := none, elapsedAtWriteFail := 0
    timerFirst := false, elapsedAtTimeout := 0
    readOutcome := none, elapsedAtRead := 0 }

/-- Environment where dial and write succeed and the timer beats the read:
the peer keeps the connection open without answering for the full timeout
(here 1000 ms). -/
def timerEnv : SendEnv :=
  { dialResult := none, elapsedAtDialFail := 0
    writeResult := none, elapsedAtWriteFail := 0
    timerFirst := true, elapsedAtTimeout := 1000000000
    readOutcome := none, elapsedAtRead := 0 }

/-- Environment where dial and write succeed and the read wins the race
with a successful response after 3 ms. -/
def readOkEnv : SendEnv :=
  { dialResult := none, elapsedAtDialFail := 0
    writeResult := none, elapsedAtWriteFail := 0
    timerFirst := false, elapsedAtTimeout := 0
    readOutcome := none, elapsedAtRead := 3000000 }

/-- Environment where dial and write succeed and the read wins the race
but fails: the peer closes the connection at once, so
`http.ReadResponse` returns a nil response and an error. -/
def readFailEnv : SendEnv :=
  { dialResult := none, elapsedAtDialFail := 0
    writeResult := none, elapsedAtWriteFail := 0
    timerFirst := false, elapsedAtTimeout := 0
    readOutcome := some (GoErr.readErr "malformed HTTP response")
    elapsedAtRead := 3000000 }

/-- Concrete result set against an unreachable target: the single request
failed to connect, so there are no successes. -/
def failedResults : List result :=
  [{ time := 0, err := some (GoErr.dialErr "connection refused") }]

/-- Concrete per-ticket send oracle: ticket `t` takes `t+1` ms and succeeds. -/
def sendOEx (t : Nat) : result :=
  { time := ((t : Int) + 1) * 1000000, err := none }

/-! Helper lemmas. -/

theorem neg_one_le_lastIndex (l : List Char) (c : Char) : -1 ≤ lastIndex l c := by
  induction l with
  | nil => simp [lastIndex]
  | cons x xs ih =>
    simp only [lastIndex]
    split
    · omega
    · split <;> omega

theorem lastIndex_lt_length (l : List Char) (c : Char) :
    lastIndex l c < (l.length : Int) := by
  induction l with
  | nil => simp [lastIndex]
  | cons x xs ih =>
    simp only [lastIndex, List.length_cons]
    split
    · push_cast; omega
    · split <;> (push_cast; omega)

theorem lastIndex_getElem (l : List Char) (c : Char) (h : 0 ≤ lastIndex l c) :
    l[(lastIndex l c).toNat]? = some c := by
  induction l with
  | nil => simp [lastIndex] at h
  | cons x xs ih =>
    simp only [lastIndex] at h ⊢
    split at h
    · rename_i hr
      rw [if_pos hr]
      have : (lastIndex xs c + 1).toNat = (lastIndex xs c).toNat + 1 := by omega
      rw [this, List.getElem?_cons_succ]
      exact ih hr
    · rename_i hr
      split at h
      · rename_i hx
        rw [if_neg hr, if_pos hx]
        simp [hx]
      · omega

theorem le_lastIndex_of_getElem (l : List Char) (c : Char) (j : Nat)
    (h : l[j]? = some c) : (j : Int) ≤ lastIndex l c := by
  induction l generalizing j with
  | nil => simp at h
  | cons x xs ih =>
    cases j with
    | zero =>
      rw [List.getElem?_cons_zero] at h
      have hx : x = c := by simpa using h
      simp only [lastIndex, if_pos hx]
      split <;> omega
    | succ j' =>
      rw [List.getElem?_cons_succ] at h
      have hle := ih j' h
      have : (0 : Int) ≤ lastIndex xs c := le_trans (by positivity) hle
      simp only [lastIndex, if_pos this]
      push_cast
      omega

theorem sender_step (sendO : Nat → result) (ch : Chan) :
    sender sendO ch =
      match rangeRecv ch with
      | RangeStep.recv t rest =>
        (sendO t :: (sender sendO rest).1, (sender sendO rest).2)
      | RangeStep.exitLoop => ([], WorkerEnd.exited)
      | RangeStep.block => ([], WorkerEnd.blocked) := by
  match ch with
  | { buf := [], closed := true } => rfl
  | { buf := [], closed := false } => rfl
  | { buf := t :: rest, closed := c } => rfl

theorem sender_open_blocks (sendO : Nat → result) (l : List Nat) :
    sender sendO { buf := l, closed := false } = (l.map sendO, WorkerEnd.blocked) := by
  induction l with
  | nil => rfl
  | cons t ts ih =>
    simp only [sender] at ih ⊢
    simp [senderLoop, ih]

theorem sender_closed_exits (sendO : Nat → result) (l : List Nat) :
    sender sendO { buf := l, closed := true } = (l.map sendO, WorkerEnd.exited) := by
  induction l with
  | nil => rfl
  | cons t ts ih =>
    simp only [sender] at ih ⊢
    simp [senderLoop, ih]

theorem sum_length_filter_assign {c : Nat} (assign : Nat → Fin c)
    (l : List Nat) :
    (∑ w : Fin c, (l.filter fun t => decide (assign t = w)).length) = l.length := by
  induction l with
  | nil => simp
  | cons t ts ih =>
    have hsplit : ∀ w : Fin c,
        ((t :: ts).filter fun s => decide (assign s = w)).length =
          (if assign t = w then 1 else 0) +
            (ts.filter fun s => decide (assign s = w)).length := by
      intro w
      by_cases h : assign t = w
      · simp [List.filter_cons, h, Nat.add_comm]
      · simp [List.filter_cons, h]
    calc (∑ w : Fin c, ((t :: ts).filter fun s => decide (assign s = w)).length)
        = ∑ w : Fin c, ((if assign t = w then 1 else 0) +
            (ts.filter fun s => decide (assign s = w)).length) := by
          exact Finset.sum_congr rfl fun w _ => hsplit w
      _ = (∑ w : Fin c, if assign t = w then 1 else 0) +
            ∑ w : Fin c, (ts.filter fun s => decide (assign s = w)).length := by
          rw [Finset.sum_add_distrib]
      _ = 1 + ts.length := by
          rw [ih, Finset.sum_ite_eq]
          simp
      _ = (t :: ts).length := by simp [Nat.add_comm]

/-! Claim theorems. -/

/-- C1: for every valid configuration (URL accepted by `getURL`,
concurrency ≤ requests), after `start` returns the result slice has exactly
`requests` filled slots, every ticket index in `[0, requests)` was enqueued
exactly once and nothing else was, and the reported counts satisfy
successes + failures = requests with failures computed as requests minus
the number of results whose error is nil. -/
theorem run_invariants (requests conc : Nat) (u v : URL) (arrival : Nat → result)
    (hc : conc ≤ requests) (hu : getURL u = Except.ok v) :
    (startResults requests arrival).length = requests ∧
    (∀ i, i < requests → (preloadedQueue requests).count i = 1) ∧
    (∀ i, requests ≤ i → (preloadedQueue requests).count i = 0) ∧
    successCount (startResults requests arrival) ≤ requests ∧
    (successCount (startResults requests arrival) : Int) +
      failuresReported requests (startResults requests arrival) = (requests : Int) ∧
    failuresReported requests (startResults requests arrival) =
      (requests : Int) - (successCount (startResults requests arrival) : Int) := by
  refine ⟨by simp [startResults], ?_, ?_, ?_, ?_, rfl⟩
  · intro i hi
    exact List.count_eq_one_of_mem (List.nodup_range requests) (List.mem_range.mpr hi)
  · intro i hi
    exact List.count_eq_zero_of_not_mem (by simp [preloadedQueue]; omega)
  · have h1 : successCount (startResults requests arrival) ≤
        (startResults requests arrival).length := by
      unfold successCount successTimes
      simpa using List.length_filter_le _ _
    simpa [startResults] using h1
  · unfold failuresReported
    ring

/-- Witness for C1 at requests = 3, concurrency = 2 and the URL
`http://example.com`. -/
theorem run_invariants_witness :
    (2 ≤ 3 ∧ getURL { scheme := "http", host := "example.com" } =
      Except.ok { scheme := "http", host := "example.com:http" }) ∧
    (startResults 3 sendOEx).length = 3 ∧ (preloadedQueue 3).count 1 = 1 := by
  have h := run_invariants 3 2 { scheme := "http", host := "example.com" }
    { scheme := "http", host := "example.com:http" } sendOEx (by norm_num) rfl
  exact ⟨⟨by norm_num, rfl⟩, h.1, h.2.1 1 (by norm_num)⟩

/-- C2: whenever the success count is zero, `printStats` reports average 0
and median 0; the success-latency list is empty, so the guarded division
and the guarded indexing are never reached. -/
theorem printStats_zero_successes (reqs : Nat) (rs : List result) (wt : Int)
    (h : successCount rs = 0) :
    successTimes rs = [] ∧ (printStats reqs rs wt).average = 0 ∧
      (printStats reqs rs wt).median = 0 := by
  have hnil : successTimes rs = [] := List.length_eq_zero.mp h
  refine ⟨hnil, ?_, ?_⟩
  · simp [printStats, averageOf, sortedTimes, hnil]
  · simp [printStats, medianOf, sortedTimes, hnil]

/-- Witness for C2 on a run whose only request failed to connect. -/
theorem printStats_zero_successes_witness :
    successCount failedResults = 0 ∧
    successTimes failedResults = [] ∧
    (printStats 1 failedResults 2000000).average = 0 ∧
    (printStats 1 failedResults 2000000).median = 0 := by
  have h := printStats_zero_successes 1 failedResults 2000000 (by decide)
  exact ⟨by decide, h.1, h.2.1, h.2.2⟩

/-- C5: with at least one argument and concurrency > requests, `main`
prints the one-line configuration error and returns with no ticket
created, no URL resolution and no dial. -/
theorem config_rejected_before_work (a : String) (args : List String)
    (reqs conc : Int) (parse : String → Option URL) (h : conc > reqs) :
    mainRun (a :: args) reqs conc parse =
      { outcome := MainOutcome.configError
        ticketsCreated := 0, urlResolutions := 0, dials := 0 } := by
  simp [mainRun, h]

/-- Witness for C5 at requests = 1, concurrency = 2. -/
theorem config_rejected_before_work_witness :
    (2 : Int) > 1 ∧
    mainRun ["http://example.com"] 1 2 (fun _ => none) =
      { outcome := MainOutcome.configError
        ticketsCreated := 0, urlResolutions := 0, dials := 0 } :=
  ⟨by norm_num,
   config_rejected_before_work "http://example.com" [] 1 2 (fun _ => none) (by norm_num)⟩

/-- C3: with at least one success, `printStats` sorts the success latencies
ascending (the sorted list is an ascending permutation of them, of the same
length as the success count) and reports median equal to the sorted list at
index count / 2 (integer division, upper-middle for an even count) and
average equal to the latency sum divided by the success count. -/
theorem printStats_median_policy (reqs : Nat) (rs : List result) (wt : Int)
    (h : 0 < successCount rs) :
    List.Sorted (fun a b : Int => a ≤ b) (sortedTimes rs) ∧
    (sortedTimes rs).Perm (successTimes rs) ∧
    (sortedTimes rs).length = successCount rs ∧
    (printStats reqs rs wt).median = (sortedTimes rs).getD (successCount rs / 2) 0 ∧
    (printStats reqs rs wt).average = (totalTime rs).tdiv (successCount rs : Int) := by
  have hperm : (sortedTimes rs).Perm (successTimes rs) := List.perm_insertionSort _ _
  have hlen : (sortedTimes rs).length = successCount rs := hperm.length_eq
  have hpos : 0 < (sortedTimes rs).length := by rw [hlen]; exact h
  refine ⟨List.sorted_insertionSort _ _, hperm, hlen, ?_, ?_⟩
  · show medianOf rs = _
    have hidx : successCount rs / 2 < (sortedTimes rs).length := by
      rw [hlen]; exact Nat.div_lt_self h (by norm_num)
    rw [List.getD_eq_getElem?_getD, List.getElem?_eq_getElem hidx]
    simp only [medianOf, dif_pos hpos, Option.getD_some]
    simp [hlen, List.get_eq_getElem]
  · show averageOf rs = _
    simp only [averageOf, if_pos hpos, hlen]
    rw [if_pos h]

/-- Witness for C3: success latencies 10, 40, 20, 30 ms sort to
10, 20, 30, 40 ms, the median is the upper-middle 30 ms and the average
25 ms. -/
theorem printStats_median_policy_witness :
    0 < successCount exampleResults ∧
    ((printStats 4 exampleResults 1000000).median =
      (sortedTimes exampleResults).getD (successCount exampleResults / 2) 0) ∧
    (printStats 4 exampleResults 1000000).median = 30000000 ∧
    (printStats 4 exampleResults 1000000).average = 25000000 ∧
    sortedTimes exampleResults = [10000000, 20000000, 30000000, 40000000] := by
  have h := printStats_median_policy 4 exampleResults 1000000 (by decide)
  exact ⟨by decide, h.2.2.2.1, by decide, by decide, by decide⟩

/-- C4 counterexample: the claim that an accepted port-less URL receives
the default port of its scheme (443 for https) is false.  The accepted URL
`https://example.com` has its host rewritten to `example.com:http`, whose
service suffix resolves to port 80, not 443. -/
theorem default_port_claim_false : ¬ specC4 := by
  intro h
  have h80 := h { scheme := "https", host := "example.com" }
    { scheme := "https", host := "example.com:http" } rfl (by decide)
  exact absurd h80 (by decide)

/-- C4 amended: every URL accepted by `getURL` whose host has no explicit
port is given the literal service suffix `:http` — TCP port 80 — for both
the http and the https scheme. -/
theorem getURL_assigns_http_service (u v : URL) (hok : getURL u = Except.ok v)
    (hp : hasPort u.host = false) :
    v.host = u.host ++ ":http" ∧ servicePort "http" = some 80 := by
  refine ⟨?_, rfl⟩
  unfold getURL at hok
  split at hok
  · exact absurd hok (by simp)
  · split at hok
    · rename_i hPort
      rw [hp] at hPort
      exact absurd hPort (by simp)
    · injection hok with h
      rw [← h]

/-- Witness for the amended C4 at `https://example.com`. -/
theorem getURL_assigns_http_service_witness :
    hasPort "example.com" = false ∧
    (URL.mk "https" "example.com:http").host = "example.com" ++ ":http" ∧
    servicePort "http" = some 80 :=
  ⟨by decide, getURL_assigns_http_service
    { scheme := "https", host := "example.com" }
    { scheme := "https", host := "example.com:http" } rfl (by decide)⟩

/-- C6: evaluation of `send` on the three race outcomes.  Timer first gives
a result with the `Timeout!` error and the elapsed time since the recorded
start; a successful read first closes the connection and the body and gives
a nil error.  But when the read completes first with an error,
`http.ReadResponse` returned a nil response, and `rerr.resp.Body.Close()`
dereferences it: the call crashes after closing the connection instead of
returning the result that carries the read error, contradicting the claim
and the intent visible in the assignment of `res`. -/
theorem send_read_error_nil_deref :
    send timerEnv =
      { outcome := SendOutcome.ret { time := 1000000000, err := some GoErr.timeoutMsg },
        connClosed := false, bodyClosed := false } ∧
    send readOkEnv =
      { outcome := SendOutcome.ret { time := 3000000, err := none },
        connClosed := true, bodyClosed := true } ∧
    send readFailEnv =
      { outcome := SendOutcome.nilDeref,
        connClosed := true, bodyClosed := false } :=
  ⟨rfl, rfl, rfl⟩

/-- C7 counterexample: the claim that every result records wall-clock time
from just before dialing to the decision of the outcome is false for
connect failures: when `net.Dial` fails 5 ms in, the returned result
carries elapsed 0, not 5 ms (`return result{0, err}`). -/
theorem elapsed_claim_false : ¬ specC7 := by
  intro h
  have h0 := h dialFailEnv
    { time := 0, err := some (GoErr.dialErr "connection refused") } rfl
  exact absurd h0 (by decide)

/-- C7 amended: a result decided by the timeout race (timer fired, or the
read completed and succeeded) records the wall-clock time from just before
dialing to that decision; connect and write failures record elapsed 0. -/
theorem send_elapsed_race_only (env : SendEnv) (r : result)
    (h : (send env).outcome = SendOutcome.ret r) :
    (env.dialResult = none → env.writeResult = none → r.time = decisionElapsed env) ∧
    ((env.dialResult ≠ none ∨ env.writeResult ≠ none) → r.time = 0) := by
  constructor
  · intro hdial hwrite
    simp only [send, decisionElapsed, hdial, hwrite] at h ⊢
    by_cases ht : env.timerFirst
    · simp only [ht, if_pos, if_true] at h ⊢
      cases h
      rfl
    · simp only [ht, if_false, Bool.false_eq_true, if_neg] at h ⊢
      cases hr : env.readOutcome with
      | none =>
        rw [hr] at h
        cases h
        rfl
      | some e =>
        rw [hr] at h
        exact absurd h (by simp)
  · intro hne
    cases hd : env.dialResult with
    | some e =>
      simp only [send, hd] at h
      cases h
      rfl
    | none =>
      cases hw : env.writeResult with
      | some e =>
        simp only [send, hd, hw] at h
        cases h
        rfl
      | none =>
        rw [hd, hw] at hne
        simp at hne

/-- Witness for the amended C7: with the timer winning after 1000 ms the
returned result records exactly the elapsed time at the decision. -/
theorem send_elapsed_race_only_witness :
    (send timerEnv).outcome = SendOutcome.ret
      { time := 1000000000, err := some GoErr.timeoutMsg } ∧
    ({ time := 1000000000, err := some GoErr.timeoutMsg } : result).time =
      decisionElapsed timerEnv :=
  ⟨rfl, (send_elapsed_race_only timerEnv
    { time := 1000000000, err := some GoErr.timeoutMsg } rfl).1 rfl rfl⟩

/-- C8 counterexample: the claim that a progress message appears after
every 100th result collected is false at requests = 100.  The 100th result
is stored at loop index 99, and `99 % 100 == 0` fails, so a 100-request run
prints no progress message at all. -/
theorem progress_every_100th_false : ¬ specC8 100 := by
  intro h
  have h99 := h 100 (by norm_num) (by norm_num) (by norm_num)
  exact absurd h99 (by decide)

/-- C8 amended: the progress line is printed exactly after storing the
result at loop index i for 0 < i < requests with i divisible by 100 — that
is, after the 101st, 201st, ... results — showing that index i (one less
than the number of results already collected) out of the total; the run
always ends by printing the spaces line that overwrites the progress text,
so the progress messages do not persist into the final report. -/
theorem progress_messages_amended (requests : Nat) :
    (∀ i total, OutputEvent.progress i total ∈ startEvents requests ↔
      (total = requests ∧ 0 < i ∧ i < requests ∧ i % 100 = 0)) ∧
    (startEvents requests).getLast? = some OutputEvent.eraseLine ∧
    (∀ i, progressPrintedAt requests i = true ↔
      (0 < i ∧ i < requests ∧ i % 100 = 0)) := by
  refine ⟨?_, ?_, ?_⟩
  · intro i total
    simp only [startEvents, List.mem_append, List.mem_map, List.mem_singleton,
      progressIndices, List.mem_filter, List.mem_range, Bool.and_eq_true,
      decide_eq_true_eq]
    constructor
    · rintro (⟨a, ⟨ha1, ha2, ha3⟩, heq⟩ | habs)
      · cases heq
        exact ⟨rfl, ha2, ha1, ha3⟩
      · exact absurd habs (by simp)
    · rintro ⟨rfl, h1, h2, h3⟩
      exact Or.inl ⟨i, ⟨h2, h1, h3⟩, rfl⟩
  · rw [startEvents, List.getLast?_concat]
  · intro i
    simp only [progressPrintedAt, Bool.and_eq_true, decide_eq_true_eq]
    tauto

/-- Witness for the amended C8 at requests = 250: the first progress line
appears after the 101st result and shows 100 of 250. -/
theorem progress_messages_amended_witness :
    OutputEvent.progress 100 250 ∈ startEvents 250 ∧
    (startEvents 250).getLast? = some OutputEvent.eraseLine :=
  ⟨((progress_messages_amended 250).1 100 250).mpr
      (by refine ⟨rfl, by norm_num, by norm_num, by norm_num⟩),
   (progress_messages_amended 250).2.1⟩

/-- C9: the pulling and forwarding part of the claim holds — each worker
forwards one `send` result per ticket it receives, and the workers jointly
consume all `requests` tickets — but the claimed loop exit never happens.
The queue channel is never closed, and a `for _ = range queue` loop is
left only by a receive on a closed, drained channel, so once the buffer
drains every worker blocks forever inside its loop: over the channel of
its tickets with the program's never-asserted close flag the loop ends
`blocked`; only over the hypothetical closed channel does it end `exited`
as the claim and the spec assert.  The last conjunct evaluates the loop at
the concrete failing run of one request: the single ticket is forwarded
and the worker is left parked. -/
theorem workers_never_exit (requests c : Nat) (assign : Nat → Fin c)
    (sendO : Nat → result) (w : Fin c) :
    sender sendO { buf := workerTickets requests c assign w
                   closed := (startQueue requests).closed } =
      ((workerTickets requests c assign w).map sendO, WorkerEnd.blocked) ∧
    sender sendO { buf := workerTickets requests c assign w, closed := true } =
      ((workerTickets requests c assign w).map sendO, WorkerEnd.exited) ∧
    (startQueue requests).closed = false ∧
    (∑ w2 : Fin c, (workerTickets requests c assign w2).length) = requests ∧
    sender sendOEx (startQueue 1) =
      ([{ time := 1000000, err := none }], WorkerEnd.blocked) := by
  refine ⟨sender_open_blocks _ _, sender_closed_exits _ _, rfl, ?_, rfl⟩
  have hs := sum_length_filter_assign assign (List.range requests)
  simpa [workerTickets, preloadedQueue] using hs

/-- C10: an accepted URL keeps its host unchanged exactly when `hasPort`
holds, and otherwise gets the literal `":http"` appended, the same literal
for both schemes (the rewrite does not consult the scheme at all); a host
has a port exactly when some `:` occurs with every `]` strictly before it
(equivalently, its last `:` is after its last `]`), so the bracketed IPv6
host `[::1]` without a trailing port counts as portless. -/
theorem getURL_host_policy (u v : URL) (hok : getURL u = Except.ok v) :
    ((hasPort u.host = true → v.host = u.host) ∧
     (hasPort u.host = false → v.host = u.host ++ ":http")) ∧
    (∀ s : String, hasPort s = true ↔
      ∃ i : Nat, s.data[i]? = some ':' ∧ ∀ j : Nat, s.data[j]? = some ']' → j < i) ∧
    hasPort "[::1]" = false := by
  refine ⟨⟨?_, ?_⟩, ?_, by decide⟩
  · intro hp
    unfold getURL at hok
    split at hok
    · exact absurd hok (by simp)
    · injection hok with h
      rw [← h]
  · intro hp
    unfold getURL at hok
    split at hok
    · exact absurd hok (by simp)
    · rw [hp] at hok
      simp only [Bool.false_eq_true, if_false] at hok
      injection hok with h
      rw [← h]
  · intro s
    unfold hasPort
    rw [decide_eq_true_eq]
    constructor
    · intro hgt
      have hbr := neg_one_le_lastIndex s.data ']'
      have hc0 : 0 ≤ lastIndex s.data ':' := by omega
      refine ⟨(lastIndex s.data ':').toNat, lastIndex_getElem _ _ hc0, ?_⟩
      intro j hj
      have hle := le_lastIndex_of_getElem s.data ']' j hj
      omega
    · rintro ⟨i, hi, hall⟩
      have hle : (i : Int) ≤ lastIndex s.data ':' :=
        le_lastIndex_of_getElem s.data ':' i hi
      by_cases hb : 0 ≤ lastIndex s.data ']'
      · have hget := lastIndex_getElem s.data ']' hb
        have hlt := hall _ hget
        omega
      · omega

/-- Witness for C10 at the accepted URL `http://example.com:8080`: the host
already has a port and is returned unchanged, and `[::1]` is portless. -/
theorem getURL_host_policy_witness :
    hasPort "example.com:8080" = true ∧
    (URL.mk "http" "example.com:8080").host = "example.com:8080" ∧
    hasPort "[::1]" = false :=
  ⟨by decide,
   (getURL_host_policy { scheme := "http", host := "example.com:8080" }
      { scheme := "http", host := "example.com:8080" } rfl).1.1 (by decide),
   (getURL_host_policy { scheme := "http", host := "example.com:8080" }
      { scheme := "http", host := "example.com:8080" } rfl).2.2⟩

end Gofigure
